import Mathlib

/-!
Verification of the anyzig / vscode-zig toolchain-manager extension.

The repository source present in the snapshot is the extension setup module
(`zigSetup.ts`, given here as `src/unnamed/part_000`) together with the
extension entry point.  The engine modules it imports (`minisign.ts`,
`versionManager.ts`, `zigUtil.ts`, `zigProvider.ts`) are not part of the
snapshot; where a claim depends on them the corresponding definition is
modelled from the specification and marked as such in its doc comment.

Strings that undergo character-level processing (manifest text, version
strings) are embedded as `List Char`; opaque identifiers (URLs, paths) are
embedded as `String`.
-/

/-- Decidable equality for `Except`, used to evaluate fixtures. -/
instance {ε α : Type _} [DecidableEq ε] [DecidableEq α] :
    DecidableEq (Except ε α) := fun a b =>
  match a, b with
  | .ok x, .ok y =>
    if h : x = y then isTrue (congrArg Except.ok h)
    else isFalse (fun hc => h (Except.ok.inj hc))
  | .error x, .error y =>
    if h : x = y then isTrue (congrArg Except.error h)
    else isFalse (fun hc => h (Except.error.inj hc))
  | .ok _, .error _ => isFalse (fun hc => Except.noConfusion hc)
  | .error _, .ok _ => isFalse (fun hc => Except.noConfusion hc)

namespace Anyzig

/-! ## Characters and semantic versions (the `semver` library as used by the source) -/

/-- Whitespace as matched by JavaScript `\s` / `String.trim` (ASCII part). -/
def isJsWs (c : Char) : Bool :=
  c = ' ' || c = '\t' || c = '\n' || c = '\r' || c = '\x0B' || c = '\x0C'

def isDigitChar (c : Char) : Bool := '0' ≤ c && c ≤ '9'

/-- Characters allowed in semver prerelease/build identifiers: `[0-9A-Za-z-]`. -/
def isIdentChar (c : Char) : Bool :=
  isDigitChar c || ('a' ≤ c && c ≤ 'z') || ('A' ≤ c && c ≤ 'Z') || c = '-'

def digitsVal (cs : List Char) : Nat :=
  cs.foldl (fun a c => 10 * a + (c.toNat - 48)) 0

/-- Strict numeric identifier: `0|[1-9]\d*` (nonempty, digits, no leading zero). -/
def validNumericId (cs : List Char) : Bool :=
  !cs.isEmpty && cs.all isDigitChar && (cs.length = 1 || cs.head? != some '0')

def trimWs (cs : List Char) : List Char :=
  ((cs.dropWhile isJsWs).reverse.dropWhile isJsWs).reverse

/-- A semver prerelease identifier: numeric or alphanumeric. -/
inductive PreId where
  | num (n : Nat)
  | alpha (s : List Char)
deriving DecidableEq, Repr

/-- Parsed semantic version (node-semver strict form). -/
structure SemVer where
  major : Nat
  minor : Nat
  patch : Nat
  prerelease : List PreId
  build : List (List Char)
deriving DecidableEq, Repr

def parseMainNum (cs : List Char) : Option Nat :=
  if validNumericId cs then some (digitsVal cs) else none

def parsePreId (cs : List Char) : Option PreId :=
  if cs.isEmpty then none
  else if cs.all isDigitChar then
    if cs.length = 1 || cs.head? != some '0' then some (.num (digitsVal cs)) else none
  else if cs.all isIdentChar then some (.alpha cs) else none

def parseBuildId (cs : List Char) : Option (List Char) :=
  if !cs.isEmpty && cs.all isIdentChar then some cs else none

/-- `semver.parse` on a version string: trims, allows a leading `v`, requires
`major.minor.patch` with strict numeric identifiers, then an optional
`-prerelease` and an optional `+build` section.  Returns `none` on any
malformed input, as the library does. -/
def semverParse (input : List Char) : Option SemVer :=
  let t := trimWs input
  let s := match t with | 'v' :: r => r | _ => t
  let mainPart := s.takeWhile (fun c => isDigitChar c || c = '.')
  let rest := s.drop mainPart.length
  match mainPart.splitOn '.' with
  | [a, b, c] =>
    match parseMainNum a, parseMainNum b, parseMainNum c with
    | some ma, some mi, some pa =>
      match rest with
      | [] => some ⟨ma, mi, pa, [], []⟩
      | '-' :: r =>
        let preChars := r.takeWhile (fun c => c != '+')
        let buildPart := r.drop preChars.length
        match (preChars.splitOn '.').mapM parsePreId with
        | none => none
        | some pre =>
          match buildPart with
          | [] => some ⟨ma, mi, pa, pre, []⟩
          | '+' :: br =>
            match (br.splitOn '.').mapM parseBuildId with
            | some bs => some ⟨ma, mi, pa, pre, bs⟩
            | none => none
          | _ => none
      | '+' :: br =>
        match (br.splitOn '.').mapM parseBuildId with
        | some bs => some ⟨ma, mi, pa, [], bs⟩
        | none => none
      | _ => none
    | _, _, _ => none
  | _ => none

def compareCharList : List Char → List Char → Ordering
  | [], [] => .eq
  | [], _ :: _ => .lt
  | _ :: _, [] => .gt
  | a :: as, b :: bs =>
    match compare a.toNat b.toNat with
    | .eq => compareCharList as bs
    | o => o

def comparePreId : PreId → PreId → Ordering
  | .num a, .num b => compare a b
  | .num _, .alpha _ => .lt
  | .alpha _, .num _ => .gt
  | .alpha a, .alpha b => compareCharList a b

def comparePreList : List PreId → List PreId → Ordering
  | [], [] => .eq
  | [], _ :: _ => .lt
  | _ :: _, [] => .gt
  | a :: as, b :: bs =>
    match comparePreId a b with
    | .eq => comparePreList as bs
    | o => o

/-- Prerelease precedence: a version without prerelease identifiers is greater
than one with them; otherwise identifiers compare lexicographically. -/
def semverComparePre (a b : SemVer) : Ordering :=
  match a.prerelease, b.prerelease with
  | [], [] => .eq
  | [], _ :: _ => .gt
  | _ :: _, [] => .lt
  | x, y => comparePreList x y

/-- `semver.compare`: main version numerically, then prerelease precedence
(build metadata is ignored). -/
def semverCompare (a b : SemVer) : Ordering :=
  match compare a.major b.major with
  | .eq =>
    match compare a.minor b.minor with
    | .eq =>
      match compare a.patch b.patch with
      | .eq => semverComparePre a b
      | o => o
    | o => o
  | o => o

/-- `semver.gte`. -/
def semverGte (a b : SemVer) : Bool := semverCompare a b != .lt

example : semverParse ("0.13.0".toList) = some ⟨0, 13, 0, [], []⟩ := by decide

example : semverGte ⟨0, 12, 0, [], []⟩ ⟨0, 13, 0, [], []⟩ = false := by decide

example : semverParse ("0.14.0-dev.1+abc".toList) =
    some ⟨0, 14, 0, [.alpha ('d' :: 'e' :: 'v' :: []), .num 1], [['a', 'b', 'c']]⟩ := by
  decide

example : semverParse ("01.2.3".toList) = none := by decide

/-! ## Workspace model and `parseBuildZigZon` (translated from `src/unnamed/part_000`) -/

/-- A VS Code workspace folder, identified by its URI. -/
structure WorkspaceFolder where
  uri : String
deriving DecidableEq, Repr

/-- `getWorkspaceFolder` (part_000 lines 95-101): the first workspace folder
if any, else `null`. -/
def getWorkspaceFolder (folders : List WorkspaceFolder) : Option WorkspaceFolder :=
  match folders with
  | [] => none
  | w :: _ => some w

/-- `vscode.Uri.joinPath`. -/
def joinPath (base name : String) : String := base ++ "/" ++ name

/-- A `vscode.Position`: zero-based line and character. -/
structure Position where
  line : Nat
  character : Nat
deriving DecidableEq, Repr

/-- `TextDocument.positionAt`, for documents whose line terminator is `\n`. -/
def positionAt (text : List Char) (offset : Nat) : Position :=
  let before := text.take offset
  ⟨before.count '\n', (before.reverse.takeWhile (fun c => c != '\n')).length⟩

/-- `Position.translate(lineDelta, characterDelta)`. -/
def Position.translate (p : Position) (dl dc : Nat) : Position :=
  ⟨p.line + dl, p.character + dc⟩

/-- A `vscode.Range` (called `stop` here because `end` is reserved). -/
structure Range where
  start : Position
  stop : Position
deriving DecidableEq, Repr

/-- Characters matched by `.` in a JavaScript regex without the `s` flag
(anything but a line terminator; the ASCII ones are `\n` and `\r`). -/
def isLineChar (c : Char) : Bool := c != '\n' && c != '\r'

/-- The literal body of the regex after `\n\s*`. -/
def fieldLit : List Char := ".minimum_zig_version".toList

/-- Splits off the greedy `(.*)` capture of the regex: the characters of
`line` before its last `"`, or `none` if `line` has no `"`. -/
def lastQuoteSplit (line : List Char) : Option (List Char) :=
  match line.reverse.dropWhile (fun c => c != '"') with
  | [] => none
  | q :: revBefore => if q = '"' then some revBefore.reverse else none

/-- One anchored attempt of the regex
`\n\s*\.minimum_zig_version\s=\s\"(.*)\"` at the head of `cs`; on success
returns `(matchedText, capture)` with JavaScript greedy semantics. -/
def matchAt (cs : List Char) : Option (List Char × List Char) :=
  match cs with
  | [] => none
  | c0 :: rest =>
    if c0 = '\n' then
      if (rest.dropWhile isJsWs).take fieldLit.length = fieldLit then
        match (rest.dropWhile isJsWs).drop fieldLit.length with
        | c1 :: c2 :: c3 :: c4 :: r3 =>
          if isJsWs c1 && c2 = '=' && isJsWs c3 && c4 = '"' then
            match lastQuoteSplit (r3.takeWhile isLineChar) with
            | some v =>
              some (c0 :: rest.takeWhile isJsWs ++ fieldLit ++
                      c1 :: c2 :: c3 :: c4 :: v ++ ['"'], v)
            | none => none
          else none
        | _ => none
      else none
    else none

/-- `RegExp.exec`: the first index at which the pattern matches, with the
matched text and the capture group. -/
def execFrom : List Char → Nat → Option (Nat × List Char × List Char)
  | [], _ => none
  | c :: t, i =>
    match matchAt (c :: t) with
    | some (f, v) => some (i, f, v)
    | none => execFrom t (i + 1)

def regexExec (text : List Char) : Option (Nat × List Char × List Char) :=
  execFrom text 0

/-- Result of `parseBuildZigZon` (part_000 lines 87-93). -/
structure BuildZigZonMetadata where
  document : List Char
  minimumZigVersion : SemVer
  minimumZigVersionSourceRange : Range
deriving DecidableEq, Repr

def buildZigZonUri (w : WorkspaceFolder) : String := joinPath w.uri "build.zig.zon"

/-- `parseBuildZigZon` (part_000 lines 106-130).  `openDoc` models
`vscode.workspace.openTextDocument`: `none` means the call throws (missing
file), which the source does not catch — modelled as `Except.error`.
Otherwise the function returns `null` when there is no workspace folder,
when the regex does not match, or when the captured version string does not
parse; on success it returns the document, the parsed version and the range
computed from the match offsets exactly as the source does. -/
def parseBuildZigZon (folders : List WorkspaceFolder)
    (openDoc : String → Option (List Char)) :
    Except Unit (Option BuildZigZonMetadata) :=
  match getWorkspaceFolder folders with
  | none => .ok none
  | some w =>
    match openDoc (buildZigZonUri w) with
    | none => .error ()
    | some text =>
      match regexExec text with
      | none => .ok none
      | some (i, f, v) =>
        match semverParse v with
        | none => .ok none
        | some ver =>
          let startPos := positionAt text (i + f.length - v.length - 1)
          let endPos := startPos.translate 0 v.length
          .ok (some ⟨text, ver, ⟨startPos, endPos⟩⟩)

/-! ## `updateStatus` (translated from `src/unnamed/part_000` lines 178-220) -/

/-- Observable outcome of the version-satisfaction part of `updateStatus`.
`failedNoSatisfyingVersion` is the outcome the specification's §4.1 error
condition predicts; the source never produces it, which is what claim C2 is
about. -/
inductive UpdateStatusOutcome where
  | skippedNoToolchain
  | skippedNoManifest
  | satisfied
  | warnedUnsatisfied
  | failedNoSatisfyingVersion
deriving DecidableEq, Repr

/-- `updateStatus`: returns early when there is no current version or path;
returns early when `parseBuildZigZon` yields `null`; otherwise compares the
current Zig version against `minimum_zig_version` with `semver.gte` and, on
an unsatisfied bound, shows a warning (keeping the installed version) rather
than failing.  A throw from `parseBuildZigZon` propagates. -/
def updateStatus (zigVersion : Option SemVer) (zigPath : Option String)
    (folders : List WorkspaceFolder) (openDoc : String → Option (List Char)) :
    Except Unit UpdateStatusOutcome :=
  match zigVersion, zigPath with
  | some v, some _ =>
    match parseBuildZigZon folders openDoc with
    | .error e => .error e
    | .ok none => .ok .skippedNoManifest
    | .ok (some md) =>
      if semverGte v md.minimumZigVersion then .ok .satisfied
      else .ok .warnedUnsatisfied
  | _, _ => .ok .skippedNoToolchain

/-! ## Refresh triggers (translated from `src/unnamed/part_000` lines 276-330) -/

/-- The events that invoke the debounced `refreshZigInstallation`:
file-watcher events on `.zigversion` and `build.zig.zon` (create, change,
delete), configuration changes to `zig.version` and `zig.path`, and the
initial call at the end of `setupZig`. -/
inductive RefreshTrigger where
  | zigversionWatcher
  | buildZigZonWatcher
  | versionConfigChange
  | pathConfigChange
  | initialSetup
deriving DecidableEq, Repr

/-- What a refresh run does. -/
inductive RefreshAction where
  | runInstall
  | runUpdateStatus
deriving DecidableEq, Repr

/-- Body of `refreshZigInstallation` (part_000 lines 279-285):
`if (!vscode.workspace.getConfiguration("zig").get<string>("path"))` —
an absent (`undefined`) or empty `zig.path` value is falsy and engages
`installZig`; any non-empty configured path leads to `updateStatus` only. -/
def refreshZigInstallationBody (zigPathConfig : Option String) : RefreshAction :=
  match zigPathConfig with
  | none => .runInstall
  | some p => if p = "" then .runInstall else .runUpdateStatus

/-- Every refresh trigger runs the same debounced body. -/
def handleRefreshTrigger (_t : RefreshTrigger) (zigPathConfig : Option String) :
    RefreshAction :=
  refreshZigInstallationBody zigPathConfig

/-- A non-empty executable path is configured in the `zig.path` setting. -/
def pathConfigured (zigPathConfig : Option String) : Prop :=
  ∃ p, zigPathConfig = some p ∧ p ≠ ""

/-- The debounce quiet period of `refreshZigInstallation`, in milliseconds
(part_000 line 285: `asyncDebounce(..., 200)`). -/
def refreshDebounceMs : Nat := 200

/-! ## Version-manager configuration (translated from `src/unnamed/part_000` lines 246-266) -/

inductive Channel where
  | release
  | nightly
deriving DecidableEq, Repr

/-- The sources the Release Index Fetcher may try: one canonical URL per
channel plus an ordered mirror list. -/
structure FetcherConfig where
  canonicalRelease : String
  canonicalNightly : String
  mirrorUrls : List String
deriving DecidableEq, Repr

/-- The concrete configuration built by `setupZig`. -/
def anyzigFetcherConfig : FetcherConfig where
  canonicalRelease := "https://ziglang.org/download"
  canonicalNightly := "https://ziglang.org/builds"
  mirrorUrls :=
    ["https://pkg.machengine.org/zig",
     "https://zigmirror.hryx.net/zig",
     "https://zig.linus.dev/zig",
     "https://fs.liujiacai.net/zigbuilds",
     "https://zigmirror.nesovic.dev/zig"]

def canonicalUrl (cfg : FetcherConfig) : Channel → String
  | .release => cfg.canonicalRelease
  | .nightly => cfg.canonicalNightly

/-- The ordered list of sources for a channel: canonical first, then the
configured mirrors in listed order. -/
def sourceUrls (cfg : FetcherConfig) (ch : Channel) : List String :=
  canonicalUrl cfg ch :: cfg.mirrorUrls

/-! ## Signature Verifier -/

/-- The two algorithm bytes `Ed` that open a minisign key or signature. -/
def edAlgBytes : List Nat := [0x45, 0x64]

/-- Parsed minisign public key: algorithm, 8-byte key identifier, 32 raw key
bytes. -/
structure MinisignPublicKey where
  signatureAlgorithm : List Nat
  keyId : List Nat
  keyBytes : List Nat
deriving DecidableEq, Repr

/-- Parsed minisign signature: algorithm, 8-byte key identifier, 64 raw
signature bytes, optional trusted comment with its global signature. -/
structure MinisignSignature where
  signatureAlgorithm : List Nat
  keyId : List Nat
  signatureBytes : List Nat
  trustedComment : List Nat
  globalSignature : Option (List Nat)
deriving DecidableEq, Repr

/-- Modelled from the spec: the Signature Verifier of `src/minisign.ts` is
imported by the setup module but its code is not in the snapshot.  Per §4.3
a public key decodes to version bytes, an 8-byte key identifier and 32 raw
key bytes; anything else is malformed and fails to parse. -/
def parsePublicKeyBytes (b : List Nat) : Option MinisignPublicKey :=
  if b.length = 42 && b.take 2 = edAlgBytes then
    some ⟨b.take 2, (b.drop 2).take 8, b.drop 10⟩
  else none

/-- Modelled from the spec: a minisign signature decodes to version bytes, an
8-byte key identifier and 64 raw signature bytes, optionally followed by a
trusted comment and a 64-byte global signature over it; anything shorter or
with a wrong version is malformed. -/
def parseSignatureBytes (b : List Nat) : Option MinisignSignature :=
  if b.length < 74 then none
  else if b.take 2 ≠ edAlgBytes then none
  else
    let keyId := (b.drop 2).take 8
    let sig := (b.drop 10).take 64
    let rest := b.drop 74
    if rest.isEmpty then some ⟨b.take 2, keyId, sig, [], none⟩
    else if rest.length < 64 then none
    else some ⟨b.take 2, keyId, sig, rest.take (rest.length - 64),
               some (rest.drop (rest.length - 64))⟩

/-- Modelled from the spec (§4.3): `verify(publicKey, message, signature)`,
parameterised by the underlying Ed25519 primitive `ed key message sig` so
that theorems can quantify over every possible cryptographic check.  Both
inputs are parsed; a failure to parse is a verification failure, never a
crash.  A key-identifier mismatch fails before the cryptographic check.
When a global signature is present it is checked over
`signatureBytes ++ trustedComment` with the same key; when absent,
comment-level trust is skipped. -/
def verifyWith (ed : List Nat → List Nat → List Nat → Bool)
    (publicKey message signature : List Nat) : Bool :=
  match parsePublicKeyBytes publicKey, parseSignatureBytes signature with
  | some pk, some sig =>
    if sig.keyId ≠ pk.keyId then false
    else
      match sig.globalSignature with
      | some g =>
        ed pk.keyBytes message sig.signatureBytes &&
          ed pk.keyBytes (sig.signatureBytes ++ sig.trustedComment) g
      | none => ed pk.keyBytes message sig.signatureBytes
  | _, _ => false

/-! ## Release Index Fetcher -/

/-- Outcome of one HTTP attempt: network error, non-2xx status, or a 2xx
body. -/
inductive FetchResult where
  | networkError
  | httpStatus (code : Nat)
  | body (content : List Char)
deriving DecidableEq, Repr

/-- One per-host artifact of a release entry (§6 index schema). -/
structure ArtifactInfo where
  tarball : String
  shasum : Option String
  size : Option Nat
  signatureRef : Option String
deriving DecidableEq, Repr

/-- A release index: versions in order, each mapping host triples to
artifacts. -/
abbrev ReleaseIndex := List (String × List (String × ArtifactInfo))

inductive FetchError where
  | indexUnavailable
deriving DecidableEq, Repr

/-- An attempt at `u` fails: any body it might return does not parse. -/
def attemptFails (fetch : String → FetchResult)
    (parseIndex : List Char → Option ReleaseIndex) (u : String) : Prop :=
  ∀ c, fetch u = .body c → parseIndex c = none

/-- Modelled from the spec (§4.2): try each source in order, return the first
index that parses successfully, recording the attempted URLs; exhausting all
sources fails with `IndexUnavailable`.  `versionManager.ts` is not in the
snapshot; only its configuration (mirrors, canonical URLs) is. -/
def trySources (fetch : String → FetchResult)
    (parseIndex : List Char → Option ReleaseIndex) :
    List String → Except FetchError ReleaseIndex × List String
  | [] => (.error .indexUnavailable, [])
  | u :: rest =>
    match fetch u with
    | .body content =>
      match parseIndex content with
      | some idx => (.ok idx, [u])
      | none =>
        let r := trySources fetch parseIndex rest
        (r.1, u :: r.2)
    | _ =>
      let r := trySources fetch parseIndex rest
      (r.1, u :: r.2)

/-- Modelled from the spec (§4.2): `fetchIndex(channel)` tries the canonical
URL for the channel, then each configured mirror in listed order. -/
def fetchIndex (fetch : String → FetchResult)
    (parseIndex : List Char → Option ReleaseIndex)
    (cfg : FetcherConfig) (ch : Channel) :
    Except FetchError ReleaseIndex × List String :=
  trySources fetch parseIndex (sourceUrls cfg ch)

/-! ## Version Resolver -/

/-- The source tags of a wanted version (the enum's cases appear in
`src/unnamed/part_000` lines 34-44). -/
inductive WantedZigVersionSource where
  | workspaceZigVersionFile
  | workspaceBuildZigZon
  | zigVersionConfigOption
deriving DecidableEq, Repr

/-- A version requirement: a concrete version string or the latest-stable
sentinel (§3). -/
inductive VersionRequirement where
  | version (s : List Char)
  | latestStable
deriving DecidableEq, Repr

/-- Environment the resolver consults. -/
structure ResolveEnv where
  workspaceFolders : List WorkspaceFolder
  readFile : String → Option (List Char)
  openDoc : String → Option (List Char)
  configVersion : Option (List Char)

def zigversionUri (w : WorkspaceFolder) : String := joinPath w.uri ".zigversion"

/-- Modelled from the spec (§4.1 source 1): the version pinned in the
project's `.zigversion` file, when the workspace exists, the file is
readable and its trimmed contents parse as a version.
(`getWantedZigVersion` lives in the absent part of the setup module.) -/
def pinnedVersion (env : ResolveEnv) : Option (List Char) :=
  match getWorkspaceFolder env.workspaceFolders with
  | none => none
  | some w =>
    match env.readFile (zigversionUri w) with
    | none => none
    | some contents =>
      match semverParse (trimWs contents) with
      | some _ => some (trimWs contents)
      | none => none

/-- Modelled from the spec (§4.1 source 2): the manifest minimum-version
field, read through `parseBuildZigZon`. -/
def manifestMin (env : ResolveEnv) : Option SemVer :=
  match parseBuildZigZon env.workspaceFolders env.openDoc with
  | .ok (some md) => some md.minimumZigVersion
  | _ => none

def natChars (n : Nat) : List Char := (toString n).toList

def renderPreId : PreId → List Char
  | .num n => natChars n
  | .alpha s => s

/-- Rendering of a parsed version back to its string. -/
def renderSemVer (v : SemVer) : List Char :=
  natChars v.major ++ '.' :: natChars v.minor ++ '.' :: natChars v.patch ++
    (match v.prerelease with
     | [] => []
     | ids => '-' :: List.intercalate ['.'] (ids.map renderPreId))

/-- Modelled from the spec (§4.1): `resolve()` consults, in order, the
pinned `.zigversion` file, the manifest `minimum_zig_version` field, the
`zig.version` configuration setting, and falls back to latest stable; the
first source that yields a value wins and is reported as the `Source` tag
(a missing workspace skips the two project-level sources). -/
def resolve (env : ResolveEnv) : VersionRequirement × Option WantedZigVersionSource :=
  match pinnedVersion env with
  | some v => (.version v, some .workspaceZigVersionFile)
  | none =>
    match manifestMin env with
    | some m => (.version (renderSemVer m), some .workspaceBuildZigZon)
    | none =>
      match env.configVersion with
      | some v => (.version v, some .zigVersionConfigOption)
      | none => (.latestStable, none)

/-! ## Installer -/

inductive InstallError where
  | downloadFailed
  | signatureInvalid
  | extractionFailed
  | versionMismatch
deriving DecidableEq, Repr

/-- The pipeline steps, in the order the Installer performs them. -/
inductive InstallStep where
  | downloadStep
  | verifyStep
  | extractStep
  | versionCheckStep
  | publishStep
deriving DecidableEq, Repr

/-- The concrete outcome of a successful installation (§3). -/
structure ResolvedToolchain where
  version : String
  exePath : String
deriving DecidableEq, Repr

/-- Environment of one install run: the Ed25519 primitive, the configured
trusted key, and the outcomes of the effectful steps. -/
structure InstallEnv where
  ed : List Nat → List Nat → List Nat → Bool
  publicKey : List Nat
  download : Option (List Nat)
  signature : List Nat
  extractOk : Bool
  reportedVersion : Option String
  exePath : String

/-- Modelled from the spec (§4.4): the Installer of `versionManager.ts`
(absent from the snapshot).  Steps in order: download (`DownloadFailed`),
verification of the exact downloaded bytes by the Signature Verifier
(`SignatureInvalid`, fatal, before any extraction), extraction
(`ExtractionFailed`), executable version query (`VersionMismatch`), then the
atomic publish that adds the version-named subdirectory.  Returns the
result, the installed-versions directory after the run, and the trace of
steps performed, in order. -/
def install (env : InstallEnv) (installedVersions : List String)
    (targetVersion : String) :
    Except InstallError ResolvedToolchain × List String × List InstallStep :=
  match env.download with
  | none => (.error .downloadFailed, installedVersions, [.downloadStep])
  | some bytes =>
    if verifyWith env.ed env.publicKey bytes env.signature then
      if env.extractOk then
        match env.reportedVersion with
        | some v =>
          if v = targetVersion then
            (.ok ⟨targetVersion, env.exePath⟩, installedVersions ++ [targetVersion],
             [.downloadStep, .verifyStep, .extractStep, .versionCheckStep, .publishStep])
          else
            (.error .versionMismatch, installedVersions,
             [.downloadStep, .verifyStep, .extractStep, .versionCheckStep])
        | none =>
          (.error .versionMismatch, installedVersions,
           [.downloadStep, .verifyStep, .extractStep, .versionCheckStep])
      else
        (.error .extractionFailed, installedVersions,
         [.downloadStep, .verifyStep, .extractStep])
    else
      (.error .signatureInvalid, installedVersions, [.downloadStep, .verifyStep])

/-! ## Debounced refresh -/

/-- Modelled from the spec (§5, §9): `asyncDebounce` of `zigUtil.ts` (absent
from the snapshot) as a trailing-edge debounce — a trigger at time `t` (in
milliseconds) runs the pipeline only if no further trigger arrives within
the quiet period `delay`; a later trigger inside the window replaces the
pending timer. -/
def debounceRuns (delay : Nat) : List Nat → List Nat
  | [] => []
  | [t] => [t]
  | t :: u :: rest =>
    if u < t + delay then debounceRuns delay (u :: rest)
    else t :: debounceRuns delay (u :: rest)

/-- What one batch of debounced pipeline runs costs and produces. -/
structure PipelineEffects where
  networkRoundTrips : Nat
  readyTransitions : Nat
deriving DecidableEq, Repr

/-- Modelled from the spec (§4.5, §8): each pipeline run performs one index
round-trip and, on success, one state transition to `Ready`. -/
def executeRuns (runs : List Nat) : PipelineEffects :=
  ⟨runs.length, runs.length⟩

/-- The URI the `.zigversion` save path of
`showUpdateWorkspaceVersionDialog` targets (part_000 lines 60-68): the first
workspace folder's `.zigversion`, if a folder exists. -/
def zigversionWriteUri (folders : List WorkspaceFolder) : Option String :=
  (getWorkspaceFolder folders).map zigversionUri

/-! ## Concrete fixtures used by witnesses and counterexamples -/

/-- A manifest whose `minimum_zig_version` is `0.13.0`. -/
def sampleManifest : List Char := "\n.minimum_zig_version = \"0.13.0\"".toList

def sampleFolder : WorkspaceFolder := ⟨"/w"⟩

def sampleOpenDoc : String → Option (List Char) := fun u =>
  if u = "/w/build.zig.zon" then some sampleManifest else none

def v0_12_0 : SemVer := ⟨0, 12, 0, [], []⟩

def v0_13_0 : SemVer := ⟨0, 13, 0, [], []⟩

/-- A minisign public key whose key identifier is `01..08`. -/
def samplePubKeyBytes : List Nat :=
  edAlgBytes ++ [1, 2, 3, 4, 5, 6, 7, 8] ++ List.replicate 32 0

/-- A minisign signature whose key identifier is `09..09` (mismatching
`samplePubKeyBytes`). -/
def sampleSigBytes : List Nat :=
  edAlgBytes ++ [9, 9, 9, 9, 9, 9, 9, 9] ++ List.replicate 64 0

/-! ## Claim theorems -/

/-- C4: whenever both inputs parse and the signature's key identifier differs
from the public key's, `verify` returns false, and it does so without
attempting the Ed25519 check — the result is the same under every possible
cryptographic primitive. -/
theorem verify_keyid_mismatch_skips_crypto
    (ed ed' : List Nat → List Nat → List Nat → Bool)
    (publicKey message signature : List Nat)
    (pk : MinisignPublicKey) (sig : MinisignSignature)
    (hpk : parsePublicKeyBytes publicKey = some pk)
    (hsig : parseSignatureBytes signature = some sig)
    (hne : sig.keyId ≠ pk.keyId) :
    verifyWith ed publicKey message signature = false ∧
      verifyWith ed publicKey message signature =
        verifyWith ed' publicKey message signature := by
  unfold verifyWith
  rw [hpk, hsig]
  simp [hne]

/-- Witness for C4: a concrete key/signature pair with mismatching key
identifiers fails verification even under an always-accepting primitive. -/
theorem verify_keyid_mismatch_skips_crypto_witness :
    verifyWith (fun _ _ _ => true) samplePubKeyBytes [] sampleSigBytes = false :=
  (verify_keyid_mismatch_skips_crypto (fun _ _ _ => true) (fun _ _ _ => false)
    samplePubKeyBytes [] sampleSigBytes
    ⟨edAlgBytes, [1, 2, 3, 4, 5, 6, 7, 8], List.replicate 32 0⟩
    ⟨edAlgBytes, [9, 9, 9, 9, 9, 9, 9, 9], List.replicate 64 0, [], none⟩
    (by decide) (by decide) (by decide)).1

/-- C5: `verify` is a total function (it is a Lean function into `Bool`, so
it returns on every input and never throws); on malformed input — a public
key or signature that fails to parse — it returns false, a verification
failure rather than a crash, under every cryptographic primitive. -/
theorem verify_malformed_input_returns_false
    (ed : List Nat → List Nat → List Nat → Bool)
    (publicKey message signature : List Nat)
    (h : parsePublicKeyBytes publicKey = none ∨
         parseSignatureBytes signature = none) :
    verifyWith ed publicKey message signature = false := by
  unfold verifyWith
  rcases h with h | h
  · rw [h]
  · rw [h]
    cases parsePublicKeyBytes publicKey <;> rfl

/-- Witness for C5: empty byte strings are malformed and verify to false. -/
theorem verify_malformed_input_returns_false_witness :
    verifyWith (fun _ _ _ => true) [] [] [] = false :=
  verify_malformed_input_returns_false (fun _ _ _ => true) [] [] []
    (Or.inl (by decide))

/-- C7: two refresh triggers in rapid succession — the second arriving within
the 200 ms debounce quiet period of the first — are coalesced into a single
pipeline run, which performs exactly one network round-trip and one
resulting transition to `Ready`; two concurrent runs never happen. -/
theorem debounce_coalesces_rapid_triggers
    (t₁ t₂ : Nat) (h₁ : t₁ < t₂) (h₂ : t₂ < t₁ + refreshDebounceMs) :
    debounceRuns refreshDebounceMs [t₁, t₂] = [t₂] ∧
      executeRuns (debounceRuns refreshDebounceMs [t₁, t₂]) = ⟨1, 1⟩ := by
  have e : debounceRuns refreshDebounceMs [t₁, t₂] = [t₂] := by
    simp [debounceRuns, h₂]
  exact ⟨e, by rw [e]; rfl⟩

/-- Witness for C7: triggers at 0 ms and 100 ms coalesce to one 100 ms run. -/
theorem debounce_coalesces_rapid_triggers_witness :
    debounceRuns refreshDebounceMs [0, 100] = [100] ∧
      executeRuns (debounceRuns refreshDebounceMs [0, 100]) = ⟨1, 1⟩ :=
  debounce_coalesces_rapid_triggers 0 100 (by decide) (by decide)

/-- C8: for every refresh trigger, the debounced body engages the install
pipeline exactly when no non-empty executable path is configured in
`zig.path`; with a path configured it only updates status. -/
theorem refresh_installs_iff_no_path
    (t : RefreshTrigger) (cfg : Option String) :
    (handleRefreshTrigger t cfg = .runInstall ↔ ¬pathConfigured cfg) ∧
      (handleRefreshTrigger t cfg = .runUpdateStatus ↔ pathConfigured cfg) := by
  unfold handleRefreshTrigger refreshZigInstallationBody pathConfigured
  cases cfg with
  | none => simp
  | some p =>
    by_cases hp : p = "" <;> simp [hp]

/-- C10: the workspace-scoped operations — parsing/editing the manifest via
`parseBuildZigZon` and choosing the `.zigversion` write target — consult
only the first workspace folder: their results on any folder list equal
their results on just its first element. -/
theorem workspace_ops_use_first_folder_only
    (folders : List WorkspaceFolder) (openDoc : String → Option (List Char)) :
    parseBuildZigZon folders openDoc = parseBuildZigZon (folders.take 1) openDoc ∧
      zigversionWriteUri folders = zigversionWriteUri (folders.take 1) ∧
      getWorkspaceFolder folders = getWorkspaceFolder (folders.take 1) := by
  cases folders <;> exact ⟨rfl, rfl, rfl⟩

/-- C2 counterexample: with Zig 0.12.0 current and a manifest requiring
0.13.0, `updateStatus` warns and keeps the version; it does not fail with
`NoSatisfyingVersion`, refuting the claim at this concrete input. -/
theorem minimum_version_no_failure_counterexample :
    updateStatus (some v0_12_0) (some "/usr/bin/zig") [sampleFolder] sampleOpenDoc =
        .ok .warnedUnsatisfied ∧
      updateStatus (some v0_12_0) (some "/usr/bin/zig") [sampleFolder] sampleOpenDoc ≠
        .ok .failedNoSatisfyingVersion := by
  constructor <;> decide

/-- C2 amended: when the current version does not satisfy the manifest's
minimum bound, the extension does not fail resolution with
`NoSatisfyingVersion`; it keeps the unsatisfying version and reports the
situation through a warning (warn-after-install), never silently. -/
theorem minimum_version_warns_after_install
    (v : SemVer) (p : String) (folders : List WorkspaceFolder)
    (openDoc : String → Option (List Char)) (md : BuildZigZonMetadata)
    (hmd : parseBuildZigZon folders openDoc = .ok (some md))
    (hlt : semverGte v md.minimumZigVersion = false) :
    updateStatus (some v) (some p) folders openDoc = .ok .warnedUnsatisfied ∧
      updateStatus (some v) (some p) folders openDoc ≠
        .ok .failedNoSatisfyingVersion := by
  unfold updateStatus
  rw [hmd]
  simp [hlt]

/-- Witness for the amended C2 at the counterexample's input. -/
theorem minimum_version_warns_after_install_witness :
    updateStatus (some v0_12_0) (some "/usr/bin/zig") [sampleFolder] sampleOpenDoc =
      .ok .warnedUnsatisfied :=
  (minimum_version_warns_after_install v0_12_0 "/usr/bin/zig" [sampleFolder]
    sampleOpenDoc ⟨sampleManifest, v0_13_0, ⟨⟨1, 24⟩, ⟨1, 30⟩⟩⟩
    (by decide) (by decide)).1

/-- C6: the resolver's first-match-wins priority — when a project has both a
pinned `.zigversion` value and a manifest minimum-version field, `resolve`
returns the pinned value tagged with the pinned-file source. -/
theorem resolve_pinned_file_wins
    (env : ResolveEnv) (v : List Char) (m : SemVer)
    (hp : pinnedVersion env = some v)
    (hm : manifestMin env = some m) :
    resolve env = (.version v, some .workspaceZigVersionFile) := by
  unfold resolve
  rw [hp]

/-- Environment with a pinned `.zigversion` of 0.12.0, a manifest minimum of
0.13.0 and a configured `zig.version` of 0.11.0. -/
def sampleResolveEnv : ResolveEnv where
  workspaceFolders := [sampleFolder]
  readFile := fun u => if u = "/w/.zigversion" then some ("0.12.0".toList) else none
  openDoc := sampleOpenDoc
  configVersion := some ("0.11.0".toList)

/-- Witness for C6. -/
theorem resolve_pinned_file_wins_witness :
    resolve sampleResolveEnv =
      (.version ("0.12.0".toList), some .workspaceZigVersionFile) :=
  resolve_pinned_file_wins sampleResolveEnv ("0.12.0".toList) v0_13_0
    (by decide) (by decide)

/-! ## C9: structure of a regex match -/

lemma lastQuoteSplit_spec {line v : List Char}
    (h : lastQuoteSplit line = some v) : ∃ tail, line = v ++ '"' :: tail := by
  unfold lastQuoteSplit at h
  split at h
  · exact absurd h (by simp)
  rename_i q revBefore hd
  split at h
  case isFalse => exact absurd h (by simp)
  case isTrue hq =>
    subst hq
    have hv : revBefore.reverse = v := Option.some.inj h
    have hsplit : line.reverse.takeWhile (fun c => c != '"') ++
        ('"' :: revBefore) = line.reverse := by
      rw [← hd]
      exact List.takeWhile_append_dropWhile _ _
    refine ⟨(line.reverse.takeWhile (fun c => c != '"')).reverse, ?_⟩
    calc line = line.reverse.reverse := (List.reverse_reverse line).symm
      _ = (line.reverse.takeWhile (fun c => c != '"') ++
            ('"' :: revBefore)).reverse := by rw [hsplit]
      _ = ('"' :: revBefore).reverse ++
            (line.reverse.takeWhile (fun c => c != '"')).reverse := by
            rw [List.reverse_append]
      _ = revBefore.reverse ++
            '"' :: (line.reverse.takeWhile (fun c => c != '"')).reverse := by
            simp
      _ = v ++ '"' :: (line.reverse.takeWhile (fun c => c != '"')).reverse := by
            rw [hv]

lemma matchAt_spec {cs f v : List Char} (h : matchAt cs = some (f, v)) :
    ∃ p r, f = p ++ '"' :: (v ++ ['"']) ∧ cs = f ++ r := by
  unfold matchAt at h
  split at h
  · exact absurd h (by simp)
  rename_i c0 rest
  split at h
  case isFalse => exact absurd h (by simp)
  case isTrue h0 =>
  split at h
  case isFalse => exact absurd h (by simp)
  case isTrue hlit =>
  split at h
  case h_2 => exact absurd h (by simp)
  case h_1 c1 c2 c3 c4 r3 hdrop =>
  split at h
  case isFalse => exact absurd h (by simp)
  case isTrue hws =>
  split at h
  case h_2 => exact absurd h (by simp)
  case h_1 v' hq =>
  have hc4 : c4 = '"' := by
    simp only [Bool.and_eq_true, decide_eq_true_eq] at hws
    exact hws.2
  obtain ⟨tail, htail⟩ := lastQuoteSplit_spec hq
  have hfv : (c0 :: rest.takeWhile isJsWs ++ fieldLit ++
      c1 :: c2 :: c3 :: c4 :: v' ++ ['"'], v') = (f, v) := Option.some.inj h
  have hf : c0 :: rest.takeWhile isJsWs ++ fieldLit ++
      c1 :: c2 :: c3 :: c4 :: v' ++ ['"'] = f := congrArg Prod.fst hfv
  have hv : v' = v := congrArg Prod.snd hfv
  subst hv
  refine ⟨c0 :: rest.takeWhile isJsWs ++ fieldLit ++ [c1, c2, c3],
    tail ++ r3.dropWhile isLineChar, ?_, ?_⟩
  · rw [← hf, hc4]
    simp
  · have hrest : rest.takeWhile isJsWs ++ rest.dropWhile isJsWs = rest :=
      List.takeWhile_append_dropWhile _ _
    have hr1 : (rest.dropWhile isJsWs).take fieldLit.length ++
        (rest.dropWhile isJsWs).drop fieldLit.length = rest.dropWhile isJsWs :=
      List.take_append_drop _ _
    have hr3 : r3.takeWhile isLineChar ++ r3.dropWhile isLineChar = r3 :=
      List.takeWhile_append_dropWhile _ _
    rw [← hf]
    have hr3' : r3 = v' ++ '"' :: (tail ++ r3.dropWhile isLineChar) := by
      calc r3 = r3.takeWhile isLineChar ++ r3.dropWhile isLineChar := hr3.symm
        _ = (v' ++ '"' :: tail) ++ r3.dropWhile isLineChar := by rw [htail]
        _ = v' ++ '"' :: (tail ++ r3.dropWhile isLineChar) := by simp
    have hrest' : rest = rest.takeWhile isJsWs ++
        (fieldLit ++ (c1 :: c2 :: c3 :: c4 :: r3)) := by
      calc rest = rest.takeWhile isJsWs ++ rest.dropWhile isJsWs := hrest.symm
        _ = rest.takeWhile isJsWs ++
            ((rest.dropWhile isJsWs).take fieldLit.length ++
              (rest.dropWhile isJsWs).drop fieldLit.length) := by rw [hr1]
        _ = rest.takeWhile isJsWs ++
            (fieldLit ++ (c1 :: c2 :: c3 :: c4 :: r3)) := by rw [hlit, hdrop]
    conv_lhs => rw [hrest', hr3']
    simp

lemma execFrom_spec : ∀ (cs : List Char) (i j : Nat) {f v : List Char},
    execFrom cs i = some (j, f, v) →
    ∃ pre r p, cs = pre ++ f ++ r ∧ pre.length + i = j ∧
      f = p ++ '"' :: (v ++ ['"']) := by
  intro cs
  induction cs with
  | nil =>
    intro i j f v h
    exact absurd h (by simp [execFrom])
  | cons c t ih =>
    intro i j f v h
    unfold execFrom at h
    cases hm : matchAt (c :: t) with
    | some fv =>
      obtain ⟨f', v'⟩ := fv
      rw [hm] at h
      have h' : some (i, f', v') = some (j, f, v) := h
      have h'' := Option.some.inj h'
      have hi : i = j := congrArg (fun x => x.1) h''
      have hff : f' = f := congrArg (fun x => x.2.1) h''
      have hvv : v' = v := congrArg (fun x => x.2.2) h''
      subst hi hff hvv
      obtain ⟨p, r, hfp, hcr⟩ := matchAt_spec hm
      exact ⟨[], r, p, by simpa using hcr, by simp, hfp⟩
    | none =>
      rw [hm] at h
      have h' : execFrom t (i + 1) = some (j, f, v) := h
      obtain ⟨pre, r, p, hcs, hlen, hfp⟩ := ih (i + 1) j h'
      refine ⟨c :: pre, r, p, ?_, ?_, hfp⟩
      · rw [List.cons_append, List.cons_append, ← hcs]
      · simp only [List.length_cons]
        omega

/-- The offset arithmetic of `parseBuildZigZon` is exact: the `v.length`
characters of the document starting at offset
`i + f.length - v.length - 1` are precisely the captured version string. -/
lemma regexExec_substring {text : List Char} {i : Nat} {f v : List Char}
    (h : regexExec text = some (i, f, v)) :
    (text.drop (i + f.length - v.length - 1)).take v.length = v := by
  obtain ⟨pre, r, p, htext, hlen, hf⟩ := execFrom_spec text 0 i h
  have hi : pre.length = i := by simpa using hlen
  have hflen : f.length = p.length + (v.length + 2) := by
    rw [hf]
    simp [List.length_append]
  have hsplit : text = (pre ++ p ++ ['"']) ++ (v ++ ('"' :: r)) := by
    rw [htext, hf]
    simp
  have hoff : i + f.length - v.length - 1 = (pre ++ p ++ ['"']).length := by
    simp only [List.length_append, List.length_cons, List.length_nil, ← hi, hflen]
    omega
  rw [hsplit, hoff, List.drop_left, List.take_left]

/-! ## C1: signature verification gates extraction -/

/-- C1: in every install run whose download yielded `bytes`, the extraction
step is reached only when the Signature Verifier accepted those exact bytes;
and when verification fails, the run ends with `SignatureInvalid`, the
archive is never extracted, and the installed-versions directory is
unchanged. -/
theorem install_verifies_before_extract
    (env : InstallEnv) (dir : List String) (tv : String) (bytes : List Nat)
    (hd : env.download = some bytes) :
    (InstallStep.extractStep ∈ (install env dir tv).2.2 →
      verifyWith env.ed env.publicKey bytes env.signature = true) ∧
    (verifyWith env.ed env.publicKey bytes env.signature = false →
      install env dir tv = (.error .signatureInvalid, dir, [.downloadStep, .verifyStep]) ∧
      InstallStep.extractStep ∉ (install env dir tv).2.2 ∧
      (install env dir tv).2.1 = dir) := by
  obtain ⟨ed, pk, dl, sg, exo, rv, xp⟩ := env
  dsimp only at hd
  subst hd
  constructor
  · intro hmem
    by_contra hne
    have hvf : verifyWith ed pk bytes sg = false := by
      cases hb : verifyWith ed pk bytes sg
      · rfl
      · exact absurd hb hne
    simp only [install, hvf] at hmem
    simp at hmem
  · intro hv
    refine ⟨?_, ?_, ?_⟩ <;> simp [install, hv]

/-- An install environment whose signature's key identifier mismatches the
trusted key, so verification fails regardless of the primitive. -/
def sampleInstallEnv : InstallEnv where
  ed := fun _ _ _ => true
  publicKey := samplePubKeyBytes
  download := some [1, 2, 3]
  signature := sampleSigBytes
  extractOk := true
  reportedVersion := some "0.13.0"
  exePath := "/home/user/.zig/0.13.0/zig"

/-- Witness for C1: the failing run ends in `SignatureInvalid`, performs only
the download and verify steps, and leaves the directory as it was. -/
theorem install_verifies_before_extract_witness :
    install sampleInstallEnv ["0.12.0"] "0.13.0" =
      (.error .signatureInvalid, ["0.12.0"], [.downloadStep, .verifyStep]) :=
  ((install_verifies_before_extract sampleInstallEnv ["0.12.0"] "0.13.0"
    [1, 2, 3] rfl).2 (by decide)).1

/-! ## C3: canonical URL first, mirrors in order, stop at first success -/

lemma trySources_skip (fetch : String → FetchResult)
    (parseIndex : List Char → Option ReleaseIndex) (u : String)
    (rest : List String) (hu : attemptFails fetch parseIndex u) :
    trySources fetch parseIndex (u :: rest) =
      ((trySources fetch parseIndex rest).1,
       u :: (trySources fetch parseIndex rest).2) := by
  cases hf : fetch u with
  | networkError => simp [trySources, hf]
  | httpStatus code => simp [trySources, hf]
  | body c => simp [trySources, hf, hu c hf]

lemma trySources_first (fetch : String → FetchResult)
    (parseIndex : List Char → Option ReleaseIndex) (u : String)
    (rest : List String) (s : List Char) (idx : ReleaseIndex)
    (hb : fetch u = .body s) (hp : parseIndex s = some idx) :
    trySources fetch parseIndex (u :: rest) = (.ok idx, [u]) := by
  simp [trySources, hb, hp]

lemma trySources_tried_take (fetch : String → FetchResult)
    (parseIndex : List Char → Option ReleaseIndex) :
    ∀ us : List String,
      (trySources fetch parseIndex us).2 =
        us.take (trySources fetch parseIndex us).2.length := by
  intro us
  induction us with
  | nil => rfl
  | cons u rest ih =>
    cases hf : fetch u with
    | networkError =>
      simp only [trySources, hf]
      simpa using ih
    | httpStatus code =>
      simp only [trySources, hf]
      simpa using ih
    | body c =>
      cases hp : parseIndex c with
      | some idx => simp [trySources, hf, hp]
      | none =>
        simp only [trySources, hf, hp]
        simpa using ih

lemma trySources_tried_length_le (fetch : String → FetchResult)
    (parseIndex : List Char → Option ReleaseIndex) :
    ∀ us : List String,
      (trySources fetch parseIndex us).2.length ≤ us.length := by
  intro us
  induction us with
  | nil => exact Nat.le_refl _
  | cons u rest ih =>
    cases hf : fetch u with
    | networkError =>
      simp only [trySources, hf]
      simpa using ih
    | httpStatus code =>
      simp only [trySources, hf]
      simpa using ih
    | body c =>
      cases hp : parseIndex c with
      | some idx => simp [trySources, hf, hp]
      | none =>
        simp only [trySources, hf, hp]
        simpa using ih

lemma trySources_all_fail (fetch : String → FetchResult)
    (parseIndex : List Char → Option ReleaseIndex) :
    ∀ us : List String, (∀ u ∈ us, attemptFails fetch parseIndex u) →
      (trySources fetch parseIndex us).1 = .error .indexUnavailable := by
  intro us
  induction us with
  | nil => intro _; rfl
  | cons u rest ih =>
    intro h
    rw [trySources_skip fetch parseIndex u rest (h u (by simp))]
    exact ih fun x hx => h x (by simp [hx])

/-- C3: `fetchIndex` tries the canonical URL for the channel first and the
configured mirrors in listed order; in particular, when the canonical
attempt fails and the first mirror's body parses, it returns that mirror's
index having attempted exactly the canonical URL and the first mirror —
subsequent mirrors are untried.  In general the attempted URLs are always an
initial segment of canonical-then-mirrors, their number is bounded by the
configured source count, and only when every source fails does the fetch
fail with `IndexUnavailable`. -/
theorem fetchIndex_canonical_then_mirrors
    (fetch : String → FetchResult) (parseIndex : List Char → Option ReleaseIndex)
    (cfg : FetcherConfig) (ch : Channel)
    (m0 : String) (mrest : List String) (s : List Char) (idx : ReleaseIndex)
    (hm : cfg.mirrorUrls = m0 :: mrest)
    (hcanon : attemptFails fetch parseIndex (canonicalUrl cfg ch))
    (hb : fetch m0 = .body s)
    (hp : parseIndex s = some idx) :
    fetchIndex fetch parseIndex cfg ch = (.ok idx, [canonicalUrl cfg ch, m0]) ∧
    (∀ f' p', (fetchIndex f' p' cfg ch).2 =
        (sourceUrls cfg ch).take (fetchIndex f' p' cfg ch).2.length) ∧
    (∀ f' p', (fetchIndex f' p' cfg ch).2.length ≤ 1 + cfg.mirrorUrls.length) ∧
    (∀ f' p', (∀ u ∈ sourceUrls cfg ch, attemptFails f' p' u) →
        (fetchIndex f' p' cfg ch).1 = .error .indexUnavailable) := by
  refine ⟨?_, ?_, ?_, ?_⟩
  · unfold fetchIndex sourceUrls
    rw [hm, trySources_skip fetch parseIndex _ _ hcanon,
      trySources_first fetch parseIndex m0 mrest s idx hb hp]
  · intro f' p'
    exact trySources_tried_take f' p' _
  · intro f' p'
    have h2 := trySources_tried_length_le f' p' (sourceUrls cfg ch)
    unfold fetchIndex
    simp only [sourceUrls, List.length_cons] at h2 ⊢
    omega
  · intro f' p' h
    exact trySources_all_fail f' p' _ h

/-- A fetch function for which the canonical URL errors and the first mirror
answers with a parseable body. -/
def sampleFetch : String → FetchResult := fun u =>
  if u = "https://pkg.machengine.org/zig" then .body ("good".toList)
  else .networkError

def sampleParseIndex : List Char → Option ReleaseIndex := fun c =>
  if c = "good".toList then some [] else none

/-- Witness for C3 on the configuration built by `setupZig`: the canonical
release URL fails, the first mirror succeeds, later mirrors are untried. -/
theorem fetchIndex_canonical_then_mirrors_witness :
    fetchIndex sampleFetch sampleParseIndex anyzigFetcherConfig .release =
      (.ok [], ["https://ziglang.org/download", "https://pkg.machengine.org/zig"]) :=
  (fetchIndex_canonical_then_mirrors sampleFetch sampleParseIndex
    anyzigFetcherConfig .release "https://pkg.machengine.org/zig"
    ["https://zigmirror.hryx.net/zig", "https://zig.linus.dev/zig",
     "https://fs.liujiacai.net/zigbuilds", "https://zigmirror.nesovic.dev/zig"]
    ("good".toList) [] rfl
    (by
      intro c hc
      have e : sampleFetch (canonicalUrl anyzigFetcherConfig Channel.release) =
          FetchResult.networkError := by
        decide
      rw [e] at hc
      exact FetchResult.noConfusion hc)
    (by decide) (by decide)).1

/-- C9: `parseBuildZigZon` returns `null` — without throwing and without a
partial result — whenever there is no workspace folder, or the opened
manifest contains no text matching the `minimum_zig_version` pattern, or the
captured version string does not parse as a semantic version; and every
non-null result carries the parsed version of the captured string together
with the exact source range of that string in the document (the range's
offset arithmetic selects precisely the captured characters). -/
theorem parseBuildZigZon_null_or_exact
    (folders : List WorkspaceFolder) (openDoc : String → Option (List Char))
    (w : WorkspaceFolder) (text : List Char) (md : BuildZigZonMetadata) :
    (getWorkspaceFolder folders = none →
      parseBuildZigZon folders openDoc = .ok none) ∧
    (getWorkspaceFolder folders = some w →
      openDoc (buildZigZonUri w) = some text →
      regexExec text = none →
      parseBuildZigZon folders openDoc = .ok none) ∧
    (∀ i f v, getWorkspaceFolder folders = some w →
      openDoc (buildZigZonUri w) = some text →
      regexExec text = some (i, f, v) → semverParse v = none →
      parseBuildZigZon folders openDoc = .ok none) ∧
    (getWorkspaceFolder folders = some w →
      openDoc (buildZigZonUri w) = some text →
      parseBuildZigZon folders openDoc = .ok (some md) →
      ∃ i f v,
        regexExec text = some (i, f, v) ∧
        semverParse v = some md.minimumZigVersion ∧
        md.document = text ∧
        (text.drop (i + f.length - v.length - 1)).take v.length = v ∧
        md.minimumZigVersionSourceRange =
          ⟨positionAt text (i + f.length - v.length - 1),
           (positionAt text (i + f.length - v.length - 1)).translate 0 v.length⟩) := by
  refine ⟨?_, ?_, ?_, ?_⟩
  · intro h1
    simp [parseBuildZigZon, h1]
  · intro h1 h2 h3
    simp [parseBuildZigZon, h1, h2, h3]
  · intro i f v h1 h2 h3 h4
    simp [parseBuildZigZon, h1, h2, h3, h4]
  · intro h1 h2 h3
    cases hre : regexExec text with
    | none =>
      have he : parseBuildZigZon folders openDoc = .ok none := by
        simp [parseBuildZigZon, h1, h2, hre]
      rw [he] at h3
      simp at h3
    | some ifv =>
      obtain ⟨i, f, v⟩ := ifv
      cases hsv : semverParse v with
      | none =>
        have he : parseBuildZigZon folders openDoc = .ok none := by
          simp [parseBuildZigZon, h1, h2, hre, hsv]
        rw [he] at h3
        simp at h3
      | some ver =>
        have he : parseBuildZigZon folders openDoc = .ok (some
            ⟨text, ver,
             ⟨positionAt text (i + f.length - v.length - 1),
              (positionAt text (i + f.length - v.length - 1)).translate 0 v.length⟩⟩) := by
          simp [parseBuildZigZon, h1, h2, hre, hsv]
        rw [he] at h3
        have hmd := Option.some.inj (Except.ok.inj h3)
        subst hmd
        exact ⟨i, f, v, rfl, hsv, rfl, regexExec_substring hre, rfl⟩

/-- Witness for C9: on the sample manifest the parse returns the parsed
0.13.0 with the range of the version string, whose offsets select exactly
the characters `0.13.0`. -/
theorem parseBuildZigZon_null_or_exact_witness :
    parseBuildZigZon [sampleFolder] sampleOpenDoc =
      .ok (some ⟨sampleManifest, v0_13_0, ⟨⟨1, 24⟩, ⟨1, 30⟩⟩⟩) ∧
    (sampleManifest.drop 25).take 6 = "0.13.0".toList := by
  constructor <;> decide

end Anyzig
